import Mathlib

/-!
# Verification of the ffmpeg_exporter process-supervision and telemetry core

Shallow embedding of the Rust sources of `ffmpeg_exporter`
(`src/config.rs`, `src/stream/monitor.rs`, `src/stream/stream.rs`) and
proofs about the embedded definitions.

Modelling conventions:
* Rust `f64` values that only ever carry exact decimal text parsed from
  subprocess output are modelled as rationals (`ℚ`); the arithmetic the
  code performs on them (`size * 8.0 / 1000.0`, window differences,
  divisions) is exact on the inputs considered, so `ℚ` is faithful there.
* `Url::parse` from the `url` crate is modelled by its scheme-extraction
  behaviour: a locator parses as a URL exactly when it starts with an
  ASCII-alphabetic character followed by scheme characters and a `:`;
  the scheme is returned lowercased.  This is the part of the parser the
  classified inputs exercise.
* Filesystem state is an explicit list of existing paths; wall-clock
  time ("one second elapsed since the last FPS update") is an explicit
  boolean input; the shared atomic stop flag is an explicit boolean
  (value at each read point).
-/

namespace FfmpegExporter

/-! ## Generic string helpers (models of Rust `str` operations) -/

/-- Model of Rust `str::split_once(c)`: split at the first occurrence of
`c`, returning the parts before and after it. -/
def splitOnceChar (c : Char) : List Char → Option (List Char × List Char)
  | [] => none
  | x :: rest =>
    if x = c then some ([], rest)
    else (splitOnceChar c rest).map (fun p => (x :: p.1, p.2))

/-- Model of Rust `str::ends_with(pat)`: suffix test on the characters. -/
def endsWithS (s pat : String) : Bool :=
  pat.toList.isSuffixOf s.toList

/-- Model of Rust `str::find(pat)`: index (in characters; equal to the
byte offset for ASCII text) of the first occurrence of `pat`. -/
def findSub (needle : List Char) : List Char → Option Nat
  | [] => if needle = [] then some 0 else none
  | c :: rest =>
    if needle.isPrefixOf (c :: rest) then some 0
    else (findSub needle rest).map (· + 1)

/-- Model of Rust `str::contains(pat)` for a string pattern. -/
def containsSub (hay needle : String) : Bool :=
  (findSub needle.toList hay.toList).isSome

/-- Numeric value of a decimal digit character. -/
def digitVal (c : Char) : Nat := c.toNat - '0'.toNat

/-- Parse a nonempty all-digit character list as a natural number. -/
def parseDigits (cs : List Char) : Option Nat :=
  if cs ≠ [] ∧ cs.all Char.isDigit then
    some (cs.foldl (fun a c => 10 * a + digitVal c) 0)
  else none

/-- Model of Rust `str::parse::<f64>()` on the plain decimal literals the
subprocess emits (`[-]digits[.digits]`); the value is exact in `ℚ`. -/
def parseDecimal (s : String) : Option ℚ :=
  let cs := s.toList
  let signed : Bool × List Char :=
    match cs with
    | '-' :: rest => (true, rest)
    | _ => (false, cs)
  match splitOnceChar '.' signed.2 with
  | none =>
    (parseDigits signed.2).map (fun n => if signed.1 then -(n : ℚ) else (n : ℚ))
  | some (intPart, fracPart) =>
    match parseDigits intPart, parseDigits fracPart with
    | some i, some f =>
      let q : ℚ := (i : ℚ) + (f : ℚ) / ((10 : ℚ) ^ fracPart.length)
      some (if signed.1 then -q else q)
    | _, _ => none

/-! ## `src/config.rs`: `StreamType` and classification -/

/-- `StreamType` from `config.rs`, one constructor per protocol kind,
each carrying the raw locator. -/
inductive StreamType
  | srt (url : String)
  | hls (url : String)
  | mpegTs (url : String)
  | rtmp (url : String)
  | rtsp (url : String)
  | udp (url : String)
  | file (url : String)
deriving DecidableEq, Repr

/-- The typed classification failures `from_input` can raise
(`anyhow::bail!` sites, distinguished by message). -/
inductive ClassifyError
  | unsupportedScheme (scheme : String)
  | unknownFileType
  | unresolvable (input : String)
deriving DecidableEq, Repr

/-- Scheme characters allowed after the first character of a URL scheme. -/
def isSchemeChar (c : Char) : Bool :=
  c.isAlphanum || c = '+' || c = '-' || c = '.'

/-- Accumulating scan for the scheme of a URL: characters up to the first
`:`; fails if a non-scheme character or the end of input is reached. -/
def schemeScan (acc : List Char) : List Char → Option (List Char)
  | [] => none
  | c :: cs =>
    if c = ':' then some acc.reverse
    else if isSchemeChar c then schemeScan (c :: acc) cs
    else none

/-- Model of `Url::parse(input)` restricted to what classification uses:
`some scheme` (lowercased) when the input starts with an ASCII letter
followed by scheme characters and a `:`, otherwise `none`. -/
def url_scheme (s : String) : Option String :=
  match s.toList with
  | [] => none
  | c :: cs =>
    if c.isAlpha then
      (schemeScan [c] cs).map (fun l => String.mk (l.map Char.toLower))
    else none

/-- Model of Rust `Path::extension()`: the part of the last path
component after its last `.`, provided something precedes that `.`. -/
def path_extension (s : String) : Option String :=
  let name := (s.toList.splitOn '/').getLastD []
  match splitOnceChar '.' name.reverse with
  | none => none
  | some (extRev, stemRev) =>
    if stemRev = [] then none else some (String.mk extRev.reverse)

/-- The non-URL half of `StreamType::from_input` (config.rs lines 69–80):
dispatch on filesystem existence and extension.  Stated separately so the
resolution order can be compared with the claimed one. -/
def fileDispatch (exists? : String → Bool) (input : String) :
    Except ClassifyError StreamType :=
  if exists? input then
    match path_extension input with
    | some ext =>
      if ext = "ts" then .ok (.mpegTs input)
      else if ext = "m3u8" ∨ ext = "m3u" then .ok (.hls input)
      else .ok (.file input)
    | none => .error .unknownFileType
  else .error (.unresolvable input)

/-- `StreamType::from_input` (config.rs lines 48–81).  `exists?` is the
filesystem-existence oracle used by `path.exists()`. -/
def StreamType.from_input (exists? : String → Bool) (input : String) :
    Except ClassifyError StreamType :=
  match url_scheme input with
  | some scheme =>
    if scheme = "srt" then .ok (.srt input)
    else if scheme = "rtmp" then .ok (.rtmp input)
    else if scheme = "rtsp" then .ok (.rtsp input)
    else if scheme = "udp" then .ok (.udp input)
    else if scheme = "http" ∨ scheme = "https" then
      if endsWithS input ".m3u8" || endsWithS input ".m3u" then .ok (.hls input)
      else if endsWithS input ".ts" then .ok (.mpegTs input)
      else .ok (.hls input)
    else .error (.unsupportedScheme scheme)
  | none => fileDispatch exists? input

/-- `StreamType::get_type_str` (config.rs lines 83–93). -/
def StreamType.get_type_str : StreamType → String
  | .srt _ => "srt"
  | .hls _ => "hls"
  | .mpegTs _ => "mpegts"
  | .rtmp _ => "rtmp"
  | .rtsp _ => "rtsp"
  | .udp _ => "udp"
  | .file _ => "file"

/-- The locator carried by a `StreamType` (the `match` at the end of
`get_ffprobe_args`, config.rs lines 136–144). -/
def StreamType.url : StreamType → String
  | .srt u | .hls u | .mpegTs u | .rtmp u | .rtsp u | .udp u | .file u => u

/-- `StreamType::get_ffprobe_args` (config.rs lines 95–148). -/
def StreamType.get_ffprobe_args (t : StreamType)
    (probe_size analyze_duration : Nat) (report : Bool) : List String :=
  let args := ["-show_packets", "-show_frames", "-of", "csv"]
  let args := args ++ (if report then ["-report"] else [])
  let args := args ++
    (match t with
     | .rtsp _ => ["-rtsp_transport", "tcp"]
     | .hls _ => ["-live_start_index", "-1"]
     | _ => [])
  let args := args ++
    ["-probesize", toString probe_size,
     "-analyzeduration", toString analyze_duration]
  args ++ ["-i", t.url]

/-! ## `src/stream/monitor.rs`: probe-mode telemetry extractor

The Prometheus gauges and counters touched by `process_packet_line` and
`process_frame_line`, modelled as label-indexed functions.  Gauges hold
`Option ℚ` (`none` = never set); counters hold `Nat`. -/

/-- The metric families of `StreamMetrics` used by the probe-mode stdout
parser.  Labels follow the source's `with_label_values` calls. -/
structure ProbeMetrics where
  /-- `bitrate` gauge, labels (stream_id, media_type). -/
  bitrate : String → String → Option ℚ
  /-- `packet_corrupt` counter, labels (stream_id, media_type). -/
  packet_corrupt : String → String → Nat
  /-- `frame_counter` counter, labels ("processed", stream_id, media_type);
  the constant first label is dropped. -/
  frame_counter : String → String → Nat
  /-- `fps` gauge, labels (stream type string, stream_id, media_type). -/
  fps : String → String → String → Option ℚ

/-- The all-empty metrics state (fresh registry). -/
def ProbeMetrics.empty : ProbeMetrics where
  bitrate := fun _ _ => none
  packet_corrupt := fun _ _ => 0
  frame_counter := fun _ _ => 0
  fps := fun _ _ _ => none

/-- Point update of a two-label gauge. -/
def setGauge2 (g : String → String → Option ℚ) (a b : String) (v : ℚ) :
    String → String → Option ℚ :=
  fun x y => if x = a ∧ y = b then some v else g x y

/-- Point update of a three-label gauge. -/
def setGauge3 (g : String → String → String → Option ℚ) (a b c : String)
    (v : ℚ) : String → String → String → Option ℚ :=
  fun x y z => if x = a ∧ y = b ∧ z = c then some v else g x y z

/-- Increment of a two-label counter. -/
def incCounter2 (g : String → String → Nat) (a b : String) :
    String → String → Nat :=
  fun x y => if x = a ∧ y = b then g x y + 1 else g x y

/-- `process_packet_line` (monitor.rs lines 308–329). `parts` is the
comma-split line; `parts.getD i ""` models the (guarded) `parts[i]`. -/
def process_packet_line (parts : List String) (m : ProbeMetrics) :
    ProbeMetrics :=
  if 12 ≤ parts.length then
    let media_type := parts.getD 1 ""
    let stream_id := parts.getD 2 ""
    let m1 :=
      match parseDecimal (parts.getD 9 "") with
      | some size =>
        { m with bitrate := setGauge2 m.bitrate stream_id media_type (size * 8 / 1000) }
      | none => m
    if 11 ≤ parts.length ∧ (parts.getD 11 "").toList.contains 'C' then
      { m1 with packet_corrupt := incCounter2 m1.packet_corrupt stream_id media_type }
    else m1
  else m

/-- The sliding frame-time window: the whole `frame_times` vector of
`process_stdout`, entries `(streamID_mediaType key, pts_time)`. -/
def FrameWindow : Type := List (String × ℚ)

/-- The push-then-trim of monitor.rs lines 348–353: append the new entry,
then `while frame_times.len() > 100 { frame_times.remove(0) }`. -/
def pushCapped (ft : List (String × ℚ)) (e : String × ℚ) :
    List (String × ℚ) :=
  let l := ft ++ [e]
  l.drop (l.length - 100)

/-- The distinct keys of the window, in a canonical order (`dedup`):
the iteration order of the `HashMap` grouping is unspecified in the
source, and no statement below depends on the order. -/
def windowKeys (ft : List (String × ℚ)) : List String :=
  (ft.map Prod.fst).dedup

/-- The timestamps recorded under one key, in insertion order. -/
def timesFor (ft : List (String × ℚ)) (k : String) : List ℚ :=
  (ft.filter (fun p => p.1 == k)).map Prod.snd

/-- `key.split_once('_').unwrap_or(("0", "unknown"))` (monitor.rs 370–371). -/
def split_key (k : String) : String × String :=
  match splitOnceChar '_' k.toList with
  | some (a, b) => (String.mk a, String.mk b)
  | none => ("0", "unknown")

/-- The FPS-recomputation block of monitor.rs lines 356–379: for every
key with at least two samples, set the `fps` gauge for the split labels
to `times.len() / (times.last() - times.first())`. -/
def updateFps (type_str : String) (ft : List (String × ℚ))
    (m : ProbeMetrics) : ProbeMetrics :=
  (windowKeys ft).foldl
    (fun acc k =>
      let times := timesFor ft k
      if 2 ≤ times.length then
        let time_diff := times.getLastD 0 - times.headD 0
        let fps := (times.length : ℚ) / time_diff
        let labels := split_key k
        { acc with fps := setGauge3 acc.fps type_str labels.1 labels.2 fps }
      else acc)
    m

/-- `process_frame_line` (monitor.rs lines 331–384).  `elapsedGe1`
models `last_fps_update.elapsed().as_secs() >= 1`; the returned `Bool`
records whether `last_fps_update` was reset. -/
def process_frame_line (type_str : String) (parts : List String)
    (elapsedGe1 : Bool) (ft : List (String × ℚ)) (m : ProbeMetrics) :
    (List (String × ℚ)) × ProbeMetrics × Bool :=
  if 6 ≤ parts.length then
    let media_type := parts.getD 1 ""
    let stream_id := parts.getD 2 ""
    let m1 := { m with
      frame_counter := incCounter2 m.frame_counter stream_id media_type }
    match parseDecimal (parts.getD 5 "") with
    | some pts_time =>
      let ft1 := pushCapped ft (stream_id ++ "_" ++ media_type, pts_time)
      if elapsedGe1 then (ft1, updateFps type_str ft1 m1, true)
      else (ft1, m1, false)
    | none => (ft, m1, false)
  else (ft, m, false)

/-- A run of the frame-record half of `process_stdout`: fold
`process_frame_line` over a list of (comma-split line, one-second-elapsed)
inputs, starting from a window and metrics state. -/
def runFrames (type_str : String)
    (inputs : List (List String × Bool))
    (st : List (String × ℚ) × ProbeMetrics) :
    List (String × ℚ) × ProbeMetrics :=
  inputs.foldl
    (fun st inp =>
      let r := process_frame_line type_str inp.1 inp.2 st.1 st.2
      (r.1, r.2.1))
    st

/-- The update one window key contributes to the `fps` gauge family in
the recomputation block (monitor.rs 365–377): used below to
characterise `updateFps` as a fold of per-key gauge writes. -/
def fpsKeyUpdate (t : String) (ft : List (String × ℚ))
    (g : String → String → String → Option ℚ) (k : String) :
    String → String → String → Option ℚ :=
  let times := timesFor ft k
  if 2 ≤ times.length then
    setGauge3 g t (split_key k).1 (split_key k).2
      ((times.length : ℚ) / (times.getLastD 0 - times.headD 0))
  else g

/-! ## Supervision loops (`FFprobeMonitor::run`, monitor.rs 72–138, and
`FFmpegMonitor::run`, stream.rs 91–135)

One iteration of each `while self.running.load() { ... }` body is
modelled as a function of
* the stop-flag value read at the loop head (`running`),
* the outcome of the single-session call (`Ok(())` = clean exit /
  kill-on-stop / worker EOF; `Err` = worker error, non-zero exit code,
  or wait error), and
* the flag values read at each of the 100 checks of the retry-wait loop
  (`for _ in 0..100 { if !running { return } sleep(RETRY_DELAY/100) }`).
-/

/-- Outcome of one subprocess session (`run_single_monitor` /
`start_single_process`). -/
inductive SessionOutcome
  | ok
  | err
deriving DecidableEq, Repr

/-- What an iteration of the supervision loop does next: spawn a new
session, or return from `run` (the terminal Stopped state). -/
inductive LoopPhase
  | spawning
  | stopped
deriving DecidableEq, Repr

/-- Observable effect of one supervision-loop iteration. -/
structure IterResult where
  /-- Spawn again, or return from `run`. -/
  phase : LoopPhase
  /-- Final value written to the connected/connection-state gauge this
  iteration (`none` = not touched). -/
  connected : Option ℚ
  /-- Increment applied to the reconnect/connection-reset counter. -/
  resets : Nat
  /-- Number of `RETRY_DELAY/100` sleeps performed in the backoff wait. -/
  sleeps : Nat
deriving DecidableEq, Repr

/-- Index of the first of the 100 backoff-wait flag checks that observes
the stop request (flag = false), if any. -/
def waitStopIndex (flag : Nat → Bool) : Option Nat :=
  (List.range 100).find? (fun i => !flag i)

/-- One iteration of `FFprobeMonitor::run`'s while-loop (monitor.rs
77–135).  Both the `Ok` and `Err` arms set the connection-state gauge to
0, increment `connection_reset`, and enter the interruptible 10-second
wait; the loop exits only through a `running = false` observation. -/
def ffprobe_run_iteration (running : Bool) (_o : SessionOutcome)
    (waitFlag : Nat → Bool) : IterResult :=
  if running = false then
    { phase := .stopped, connected := none, resets := 0, sleeps := 0 }
  else
    match waitStopIndex waitFlag with
    | some i => { phase := .stopped, connected := some 0, resets := 1, sleeps := i }
    | none => { phase := .spawning, connected := some 0, resets := 1, sleeps := 100 }

/-- One iteration of `FFmpegMonitor::run`'s while-loop (stream.rs
100–132).  On `Ok` the loop `break`s immediately (connection gauge set
to 0, no reset increment, no wait); on `Err` it increments
`reconnect_attempts` and enters the interruptible wait. -/
def ffmpeg_run_iteration (running : Bool) (o : SessionOutcome)
    (waitFlag : Nat → Bool) : IterResult :=
  if running = false then
    { phase := .stopped, connected := none, resets := 0, sleeps := 0 }
  else
    match o with
    | .ok => { phase := .stopped, connected := some 0, resets := 0, sleeps := 0 }
    | .err =>
      match waitStopIndex waitFlag with
      | some i => { phase := .stopped, connected := some 0, resets := 1, sleeps := i }
      | none => { phase := .spawning, connected := some 0, resets := 1, sleeps := 100 }

/-! ## `FFmpegMonitor::new` (stream.rs 40–62): filesystem effect -/

/-- Filesystem state: the set of existing paths, as a list. -/
structure Fs where
  files : List String
deriving DecidableEq, Repr

/-- `Path::new(p).exists()`. -/
def Fs.pathExists (fs : Fs) (p : String) : Bool :=
  fs.files.contains p

/-- `std::fs::remove_file(p)` on success: the path is gone. -/
def Fs.removeFile (fs : Fs) (p : String) : Fs :=
  ⟨fs.files.filter (fun q => q != p)⟩

/-- The errors `FFmpegMonitor::new` can return. -/
inductive NewError
  | classifyFailed (e : ClassifyError)
  | removeFailed
  | ffmpegMissing
deriving DecidableEq, Repr

/-- The fields of `FFmpegMonitor` fixed at construction. -/
structure FFmpegMonitor where
  output : String
  stream_type : StreamType
  ffmpeg_path : String
deriving DecidableEq, Repr

/-- `FFmpegMonitor::new` (stream.rs 40–62): classify the input, remove
the output file if it exists (`removeFails` models an OS failure of
`remove_file`, which aborts construction leaving the file in place),
then require the ffmpeg binary to exist unless the default name
`"ffmpeg"` is used.  Returns the construction result together with the
filesystem state after the call. -/
def FFmpegMonitor.new (input output ffmpeg_path : String) (fs : Fs)
    (removeFails : Bool) : Except NewError FFmpegMonitor × Fs :=
  match StreamType.from_input fs.pathExists input with
  | .error e => (.error (.classifyFailed e), fs)
  | .ok stream_type =>
    if fs.pathExists output then
      if removeFails then (.error .removeFailed, fs)
      else
        let fs1 := fs.removeFile output
        if ffmpeg_path ≠ "ffmpeg" ∧ fs1.pathExists ffmpeg_path = false then
          (.error .ffmpegMissing, fs1)
        else (.ok ⟨output, stream_type, ffmpeg_path⟩, fs1)
    else
      if ffmpeg_path ≠ "ffmpeg" ∧ fs.pathExists ffmpeg_path = false then
        (.error .ffmpegMissing, fs)
      else (.ok ⟨output, stream_type, ffmpeg_path⟩, fs)

/-! ## `FFmpegMonitor::process_stderr` (stream.rs 287–325): one line -/

/-- The metric families touched by the transcode-mode stderr parser. -/
structure StderrMetrics where
  /-- `packet_corrupt` counter, one `stream` label. -/
  packet_corrupt : String → Nat
  /-- `decoding_errors` counter, one label ("general" or a frame type). -/
  decoding_errors : String → Nat

/-- Fresh transcode-mode stderr metrics. -/
def StderrMetrics.empty : StderrMetrics where
  packet_corrupt := fun _ => 0
  decoding_errors := fun _ => 0

/-- Increment of a one-label counter. -/
def incCounter1 (g : String → Nat) (a : String) : String → Nat :=
  fun x => if x = a then g x + 1 else g x

/-- `"in I frame"` / `"in P frame"` / `"in B frame"` match at the head
of a character list, returning the frame type. -/
def inFrameAt (cs : List Char) : Option Char :=
  if ("in I frame".toList).isPrefixOf cs then some 'I'
  else if ("in P frame".toList).isPrefixOf cs then some 'P'
  else if ("in B frame".toList).isPrefixOf cs then some 'B'
  else none

/-- Model of the regex `concealing.*in (I|P|B) frame` (stream.rs 290):
after the first occurrence of `concealing`, the greedy `.*` makes the
capture come from the last `in (I|P|B) frame` occurrence on the line. -/
def concealingCapture (line : List Char) : Option Char :=
  match findSub ("concealing".toList) line with
  | none => none
  | some i =>
    let tailPart := line.drop (i + ("concealing".toList).length)
    (List.range (tailPart.length + 1)).foldl
      (fun acc j =>
        match inFrameAt (tailPart.drop j) with
        | some c => some c
        | none => acc)
      none

/-- One line of `FFmpegMonitor::process_stderr` (stream.rs 293–323):
the corrupt-packet branch labels the counter with the *offset* returned
by `line.find("corrupt packet")`, the literal decoding-error branch uses
the label "general", and the concealing-regex branch uses the captured
frame type. -/
def ffmpeg_process_stderr_line (line : String) (m : StderrMetrics) :
    StderrMetrics :=
  let m1 :=
    match findSub ("corrupt packet".toList) line.toList with
    | some stream_id =>
      { m with packet_corrupt := incCounter1 m.packet_corrupt (toString stream_id) }
    | none => m
  let m2 :=
    if containsSub line "error while decoding" then
      { m1 with decoding_errors := incCounter1 m1.decoding_errors "general" }
    else m1
  match concealingCapture line.toList with
  | some frame_type =>
    { m2 with decoding_errors := incCounter1 m2.decoding_errors (toString frame_type) }
  | none => m2

/-! ## Helper lemmas -/

theorem digitVal_zero : digitVal '0' = 0 := by decide

theorem digitVal_one : digitVal '1' = 1 := by decide

theorem digitVal_five : digitVal '5' = 5 := by decide

/-- A nonempty suffix determines the last element of the whole list. -/
theorem suffix_getLast {l s : List Char} (hs : s <:+ l) (hne : s ≠ []) :
    l.getLast? = s.getLast? := by
  obtain ⟨t, rfl⟩ := hs
  exact List.getLast?_append_of_ne_nil t hne

/-- A locator ending in `.ts` cannot also end in `.m3u8` or `.m3u`. -/
theorem endsWith_ts_excl (input : String)
    (h : endsWithS input ".ts" = true) :
    endsWithS input ".m3u8" = false ∧ endsWithS input ".m3u" = false := by
  rw [endsWithS, List.isSuffixOf_iff_suffix] at h
  have hlast : input.toList.getLast? = some 's' := by
    rw [suffix_getLast h (by decide)]; decide
  constructor
  · by_contra hb
    rw [Bool.not_eq_false, endsWithS, List.isSuffixOf_iff_suffix] at hb
    have h8 : input.toList.getLast? = some '8' := by
      rw [suffix_getLast hb (by decide)]; decide
    rw [hlast] at h8
    simp at h8
  · by_contra hb
    rw [Bool.not_eq_false, endsWithS, List.isSuffixOf_iff_suffix] at hb
    have hu : input.toList.getLast? = some 'u' := by
      rw [suffix_getLast hb (by decide)]; decide
    rw [hlast] at hu
    simp at hu

/-- Equality of `Except` values is decidable when it is on both sides. -/
instance {ε α : Type} [DecidableEq ε] [DecidableEq α] :
    DecidableEq (Except ε α)
  | .ok a, .ok b =>
    if h : a = b then isTrue (by rw [h])
    else isFalse (fun hc => h (Except.ok.inj hc))
  | .ok _, .error _ => isFalse (fun hc => Except.noConfusion hc)
  | .error _, .ok _ => isFalse (fun hc => Except.noConfusion hc)
  | .error a, .error b =>
    if h : a = b then isTrue (by rw [h])
    else isFalse (fun hc => h (Except.error.inj hc))

/-! ## Claim theorems -/

/-- Claim C3: classification maps the URL schemes `srt`, `rtmp`, `rtsp`
and `udp` directly to the corresponding kinds; maps `http`/`https` URLs
to MPEG-TS when the locator ends in `.ts` and to HLS otherwise
(including `.m3u8`/`.m3u` and any other extension); fails with an
unsupported-scheme error for any other URL scheme; and in particular
classifies the four example locators as SRT, HLS, MPEG-TS and RTSP. -/
theorem classify_url_dispatch :
    (∀ (ex : String → Bool) input, url_scheme input = some "srt" →
        StreamType.from_input ex input = .ok (.srt input))
  ∧ (∀ (ex : String → Bool) input, url_scheme input = some "rtmp" →
        StreamType.from_input ex input = .ok (.rtmp input))
  ∧ (∀ (ex : String → Bool) input, url_scheme input = some "rtsp" →
        StreamType.from_input ex input = .ok (.rtsp input))
  ∧ (∀ (ex : String → Bool) input, url_scheme input = some "udp" →
        StreamType.from_input ex input = .ok (.udp input))
  ∧ (∀ (ex : String → Bool) input,
        (url_scheme input = some "http" ∨ url_scheme input = some "https") →
        endsWithS input ".ts" = true →
        StreamType.from_input ex input = .ok (.mpegTs input))
  ∧ (∀ (ex : String → Bool) input,
        (url_scheme input = some "http" ∨ url_scheme input = some "https") →
        endsWithS input ".ts" = false →
        StreamType.from_input ex input = .ok (.hls input))
  ∧ (∀ (ex : String → Bool) input sch, url_scheme input = some sch →
        sch ∉ (["srt", "rtmp", "rtsp", "udp", "http", "https"] : List String) →
        StreamType.from_input ex input = .error (.unsupportedScheme sch))
  ∧ StreamType.from_input (fun _ => false) "srt://host:1234" =
      .ok (.srt "srt://host:1234")
  ∧ StreamType.from_input (fun _ => false) "https://x/y.m3u8" =
      .ok (.hls "https://x/y.m3u8")
  ∧ StreamType.from_input (fun _ => false) "https://x/y.ts" =
      .ok (.mpegTs "https://x/y.ts")
  ∧ StreamType.from_input (fun _ => false) "rtsp://host/stream" =
      .ok (.rtsp "rtsp://host/stream") := by
  refine ⟨?_, ?_, ?_, ?_, ?_, ?_, ?_, by decide, by decide, by decide, by decide⟩
  · intro ex input h; simp +decide [StreamType.from_input, h]
  · intro ex input h; simp +decide [StreamType.from_input, h]
  · intro ex input h; simp +decide [StreamType.from_input, h]
  · intro ex input h; simp +decide [StreamType.from_input, h]
  · intro ex input h hts
    have hx := endsWith_ts_excl input hts
    rcases h with h | h <;>
      simp +decide [StreamType.from_input, h, hts, hx.1, hx.2]
  · intro ex input h hts
    rcases h with h | h <;>
      simp +decide [StreamType.from_input, h, hts]
  · intro ex input sch h hmem
    simp only [List.mem_cons, List.not_mem_nil, or_false, not_or] at hmem
    obtain ⟨h1, h2, h3, h4, h5, h6⟩ := hmem
    simp [StreamType.from_input, h, h1, h2, h3, h4, h5, h6]

/-- Claim C3 witness: the generic scheme-dispatch conjuncts applied to
concrete locators. -/
theorem classify_url_dispatch_witness :
    url_scheme "udp://host:9000" = some "udp" ∧
    StreamType.from_input (fun _ => true) "udp://host:9000" =
      .ok (.udp "udp://host:9000") :=
  ⟨by decide, classify_url_dispatch.2.2.2.1 (fun _ => true) "udp://host:9000" (by decide)⟩

/-- Claim C4 counterexample: locators in remote-desktop style — an
explicit `rdp://` scheme prefix, or a bare host with the well-known VNC
port suffix `:5900` (which the URL parser reads as scheme `localhost`) —
are rejected with an unsupported-scheme error; classification never
returns a remote-desktop/screen-capture kind, because `StreamType` has
no such constructor. -/
theorem remote_desktop_locator_unsupported :
    StreamType.from_input (fun _ => false) "rdp://host:3389" =
      .error (.unsupportedScheme "rdp") ∧
    StreamType.from_input (fun _ => false) "localhost:5900" =
      .error (.unsupportedScheme "localhost") := by
  constructor <;> decide

/-- Claim C4 (amended): there is no remote-desktop/screen-capture
protocol kind.  Every `StreamType` is one of the seven kinds
srt/hls/mpegts/rtmp/rtsp/udp/file, and a locator that does not parse as
a URL is dispatched directly on filesystem existence and extension —
there is no screen/remote-desktop pattern check between URL-scheme
dispatch and filesystem dispatch. -/
theorem no_remote_desktop_kind :
    (∀ s : StreamType, s.get_type_str ∈
        (["srt", "hls", "mpegts", "rtmp", "rtsp", "udp", "file"] : List String))
  ∧ (∀ (ex : String → Bool) input, url_scheme input = none →
        StreamType.from_input ex input = fileDispatch ex input) := by
  constructor
  · intro s; cases s <;> simp [StreamType.get_type_str]
  · intro ex input h
    simp [StreamType.from_input, h]

/-- Claim C4 witness: the non-URL dispatch conjunct applied to a
concrete path-like locator. -/
theorem no_remote_desktop_kind_witness :
    url_scheme "/nofile" = none ∧
    StreamType.from_input (fun _ => false) "/nofile" =
      fileDispatch (fun _ => false) "/nofile" :=
  ⟨by decide, no_remote_desktop_kind.2 (fun _ => false) "/nofile" (by decide)⟩

/-- Claim C6 (code bug, evaluated at the failing input): for the SRT
kind with `probe_size = 2500`, `analyze_duration = 5000000` and
`report = true`, the argument list carries the structured-output and
output-format flags, appends the probe-size/analyze-duration flags, and
ends with the locator — but `-report` sits at index 4, *after*
`-show_packets -show_frames -of csv`, not at the beginning of the
argument list as the claim (and the source comment "add at the
beginning of the args") requires. -/
theorem report_flag_position :
    (StreamType.srt "srt://localhost:1234").get_ffprobe_args 2500 5000000 true =
      ["-show_packets", "-show_frames", "-of", "csv", "-report",
       "-probesize", "2500", "-analyzeduration", "5000000",
       "-i", "srt://localhost:1234"] ∧
    ((StreamType.srt "srt://localhost:1234").get_ffprobe_args
        2500 5000000 true).headD "" ≠ "-report" ∧
    ((StreamType.srt "srt://localhost:1234").get_ffprobe_args
        2500 5000000 true).getLast? = some "srt://localhost:1234" := by
  refine ⟨by decide, by decide, by decide⟩

/-- Claim C7: on a well-formed packet record (≥ 12 comma-separated
fields), the bitrate gauge for (stream-id, media-type) is set to
`size * 8 / 1000` when the size field parses; the corrupt-packet counter
for the same labels grows by exactly 1 iff the flags field contains the
marker `C`; and a malformed size field skips only the bitrate update
(the bitrate gauge is left untouched while the corruption check still
applies). -/
theorem packet_line_metrics (parts : List String) (m : ProbeMetrics)
    (h : 12 ≤ parts.length) :
    (∀ q, parseDecimal (parts.getD 9 "") = some q →
        (process_packet_line parts m).bitrate (parts.getD 2 "") (parts.getD 1 "") =
          some (q * 8 / 1000))
  ∧ (parseDecimal (parts.getD 9 "") = none →
        (process_packet_line parts m).bitrate = m.bitrate)
  ∧ ((process_packet_line parts m).packet_corrupt (parts.getD 2 "") (parts.getD 1 "") =
        m.packet_corrupt (parts.getD 2 "") (parts.getD 1 "") +
          (if (parts.getD 11 "").toList.contains 'C' then 1 else 0)) := by
  have h11 : 11 ≤ parts.length := le_trans (by norm_num) h
  refine ⟨?_, ?_, ?_⟩
  · intro q hq
    by_cases hc : (parts.getD 11 "").toList.contains 'C' = true
    · simp only [process_packet_line, if_pos h, hq]
      rw [if_pos ⟨h11, hc⟩]
      simp [setGauge2]
    · simp only [process_packet_line, if_pos h, hq]
      rw [if_neg (fun hco => hc hco.2)]
      simp [setGauge2]
  · intro hq
    by_cases hc : (parts.getD 11 "").toList.contains 'C' = true
    · simp only [process_packet_line, if_pos h, hq]
      rw [if_pos ⟨h11, hc⟩]
    · simp only [process_packet_line, if_pos h, hq]
      rw [if_neg (fun hco => hc hco.2)]
  · cases hq : parseDecimal (parts.getD 9 "") with
    | none =>
      by_cases hc : (parts.getD 11 "").toList.contains 'C' = true
      · simp only [process_packet_line, if_pos h, hq]
        rw [if_pos ⟨h11, hc⟩, if_pos hc]
        simp [incCounter2]
      · simp only [process_packet_line, if_pos h, hq]
        rw [if_neg (fun hco => hc hco.2), if_neg hc]
        simp
    | some q =>
      by_cases hc : (parts.getD 11 "").toList.contains 'C' = true
      · simp only [process_packet_line, if_pos h, hq]
        rw [if_pos ⟨h11, hc⟩, if_pos hc]
        simp [incCounter2]
      · simp only [process_packet_line, if_pos h, hq]
        rw [if_neg (fun hco => hc hco.2), if_neg hc]
        simp

/-- Claim C7 witness: the spec's example line, a 12-field packet record
with media `video`, stream `0`, size `1000` and a flags field carrying
the corruption marker: the bitrate gauge becomes `1000*8/1000 = 8` and
the corrupt-packet counter for (0, video) becomes exactly 1. -/
theorem packet_line_metrics_witness :
    12 ≤ (["packet", "video", "0", "f3", "f4", "f5", "f6", "f7", "f8",
           "1000", "f10", "K_C"] : List String).length ∧
    (process_packet_line
        ["packet", "video", "0", "f3", "f4", "f5", "f6", "f7", "f8",
         "1000", "f10", "K_C"] ProbeMetrics.empty).bitrate "0" "video" = some 8 ∧
    (process_packet_line
        ["packet", "video", "0", "f3", "f4", "f5", "f6", "f7", "f8",
         "1000", "f10", "K_C"] ProbeMetrics.empty).packet_corrupt "0" "video" = 1 := by
  have h := packet_line_metrics
    ["packet", "video", "0", "f3", "f4", "f5", "f6", "f7", "f8",
     "1000", "f10", "K_C"] ProbeMetrics.empty (by decide)
  refine ⟨by decide, ?_, ?_⟩
  · have hb := h.1 1000 (by
      norm_num +decide [parseDecimal, parseDigits, splitOnceChar,
        digitVal_zero, digitVal_one])
    rw [show ((["packet", "video", "0", "f3", "f4", "f5", "f6", "f7", "f8",
        "1000", "f10", "K_C"] : List String).getD 2 "") = "0" from rfl,
      show ((["packet", "video", "0", "f3", "f4", "f5", "f6", "f7", "f8",
        "1000", "f10", "K_C"] : List String).getD 1 "") = "video" from rfl] at hb
    rw [hb]; norm_num
  · have hc := h.2.2
    rw [show ((["packet", "video", "0", "f3", "f4", "f5", "f6", "f7", "f8",
        "1000", "f10", "K_C"] : List String).getD 2 "") = "0" from rfl,
      show ((["packet", "video", "0", "f3", "f4", "f5", "f6", "f7", "f8",
        "1000", "f10", "K_C"] : List String).getD 1 "") = "video" from rfl] at hc
    rw [hc]; decide

/-- The corrupt-packet field of the transcode-mode stderr parser depends
only on the `line.find("corrupt packet")` branch; the decoding-error
branches never touch it. -/
theorem stderr_line_packet_corrupt (line : String) (m : StderrMetrics) :
    (ffmpeg_process_stderr_line line m).packet_corrupt =
      match findSub ("corrupt packet".toList) line.toList with
      | some i => incCounter1 m.packet_corrupt (toString i)
      | none => m.packet_corrupt := by
  simp only [ffmpeg_process_stderr_line]
  cases hf : findSub ("corrupt packet".toList) line.toList <;>
    cases hed : containsSub line "error while decoding" <;>
      cases hcc : concealingCapture line.toList <;> simp [hf, hed, hcc]

/-- Claim C10: for every stderr line containing the substring
`corrupt packet`, the corrupt-packet counter is incremented by exactly 1
under a `stream` label equal to the offset at which the substring begins
(the result of `line.find`), and no other label of that counter changes
— the label is not a stream index parsed from the line's content. -/
theorem stderr_corrupt_offset_label (line : String) (m : StderrMetrics)
    (i : Nat) (h : findSub ("corrupt packet".toList) line.toList = some i) :
    ((ffmpeg_process_stderr_line line m).packet_corrupt (toString i) =
        m.packet_corrupt (toString i) + 1)
  ∧ (∀ l, l ≠ toString i →
        (ffmpeg_process_stderr_line line m).packet_corrupt l =
          m.packet_corrupt l) := by
  have hsc := stderr_line_packet_corrupt line m
  rw [h] at hsc
  constructor
  · rw [hsc]
    simp [incCounter1]
  · intro l hl
    rw [hsc]
    simp [incCounter1, hl]

/-- Claim C10 witness: in the line `[mpegts] corrupt packet here` the
substring `corrupt packet` starts at offset 9, so the counter is
incremented under the label "9". -/
theorem stderr_corrupt_offset_label_witness :
    findSub ("corrupt packet".toList) ("[mpegts] corrupt packet here".toList) = some 9 ∧
    (ffmpeg_process_stderr_line "[mpegts] corrupt packet here"
        StderrMetrics.empty).packet_corrupt "9" =
      StderrMetrics.empty.packet_corrupt "9" + 1 := by
  have h := stderr_corrupt_offset_label "[mpegts] corrupt packet here"
    StderrMetrics.empty 9 (by decide)
  exact ⟨by decide, h.1⟩

/-- Claim C2 counterexample: in the transcode-mode supervisor
(`FFmpegMonitor::run`), a session that ends with exit status zero while
the stop flag still indicates running (`running = true`, every wait
check would read true) makes the loop `break` and `run` return — the
supervisor reaches its terminal state without the stop flag ever being
set, and with no new spawn attempt. -/
theorem ffmpeg_clean_exit_terminates :
    ffmpeg_run_iteration true .ok (fun _ => true) =
      { phase := .stopped, connected := some 0, resets := 0, sleeps := 0 } := by
  rfl

/-- Claim C2 (amended): the probe-mode supervisor
(`FFprobeMonitor::run`) returns only when the stop flag has been
observed false — at the loop head or during the backoff wait — and a
clean zero-exit session with the flag still running leads to a new
spawn attempt after the full retry delay; the transcode-mode supervisor
(`FFmpegMonitor::run`), by contrast, terminates on a clean zero-exit
session even while the stop flag indicates running. -/
theorem supervisor_stops_only_on_stop_flag :
    (∀ (o : SessionOutcome) (f : Nat → Bool),
        (ffprobe_run_iteration true o f).phase = .stopped →
        ∃ i, i < 100 ∧ f i = false)
  ∧ (∀ (o : SessionOutcome) (f : Nat → Bool), waitStopIndex f = none →
        ffprobe_run_iteration true o f =
          { phase := .spawning, connected := some 0, resets := 1, sleeps := 100 })
  ∧ (∀ (o : SessionOutcome) (f : Nat → Bool),
        ffprobe_run_iteration false o f =
          { phase := .stopped, connected := none, resets := 0, sleeps := 0 })
  ∧ (∀ f : Nat → Bool, (ffmpeg_run_iteration true .ok f).phase = .stopped) := by
  refine ⟨?_, ?_, ?_, ?_⟩
  · intro o f h
    cases hw : waitStopIndex f with
    | some i =>
      have hi : i < 100 := List.mem_range.mp (List.mem_of_find?_eq_some hw)
      have hf : f i = false := by
        have := List.find?_some hw
        simpa using this
      exact ⟨i, hi, hf⟩
    | none =>
      rw [ffprobe_run_iteration] at h
      simp [hw] at h
  · intro o f hw
    simp [ffprobe_run_iteration, hw]
  · intro o f
    simp [ffprobe_run_iteration]
  · intro f
    simp [ffmpeg_run_iteration]

/-- Claim C2 witness: with a stop flag that turns false at the fourth
wait check, the probe-mode iteration stops, and the theorem yields the
flag observation that caused it. -/
theorem supervisor_stops_only_on_stop_flag_witness :
    (ffprobe_run_iteration true .ok (fun i => i != 3)).phase = .stopped ∧
    ∃ i, i < 100 ∧ (fun i : Nat => i != 3) i = false :=
  ⟨by decide, supervisor_stops_only_on_stop_flag.1 .ok (fun i => i != 3) (by decide)⟩

/-- Claim C5: a session that ends in an error (stream-read/parse error
or non-zero exit) while the stop flag is still running makes both
supervisors set the connected gauge to 0, increment the reconnect
counter by exactly 1, and enter the backoff wait: a respawn happens only
after the full 100-step retry delay, and the supervisor terminates only
if some wait check observed the stop flag false. -/
theorem error_session_backoff (f : Nat → Bool) :
    (ffprobe_run_iteration true .err f).connected = some 0
  ∧ (ffprobe_run_iteration true .err f).resets = 1
  ∧ ((ffprobe_run_iteration true .err f).phase = .spawning →
      (ffprobe_run_iteration true .err f).sleeps = 100)
  ∧ ((ffprobe_run_iteration true .err f).phase = .stopped →
      ∃ i, i < 100 ∧ f i = false)
  ∧ (ffmpeg_run_iteration true .err f).connected = some 0
  ∧ (ffmpeg_run_iteration true .err f).resets = 1
  ∧ ((ffmpeg_run_iteration true .err f).phase = .spawning →
      (ffmpeg_run_iteration true .err f).sleeps = 100)
  ∧ ((ffmpeg_run_iteration true .err f).phase = .stopped →
      ∃ i, i < 100 ∧ f i = false) := by
  cases hw : waitStopIndex f with
  | some i =>
    have hi : i < 100 := List.mem_range.mp (List.mem_of_find?_eq_some hw)
    have hf : f i = false := by
      have := List.find?_some hw
      simpa using this
    refine ⟨?_, ?_, ?_, fun _ => ⟨i, hi, hf⟩, ?_, ?_, ?_, fun _ => ⟨i, hi, hf⟩⟩ <;>
      simp [ffprobe_run_iteration, ffmpeg_run_iteration, hw]
  | none =>
    refine ⟨?_, ?_, ?_, ?_, ?_, ?_, ?_, ?_⟩ <;>
      simp [ffprobe_run_iteration, ffmpeg_run_iteration, hw]

/-- Claim C5 witness: with the stop flag never set during the wait, an
error session yields reconnect increment 1, the full 100-sleep backoff,
and connected gauge 0, in both supervisors. -/
theorem error_session_backoff_witness :
    (ffprobe_run_iteration true .err (fun _ => true)).resets = 1 ∧
    (ffprobe_run_iteration true .err (fun _ => true)).sleeps = 100 ∧
    (ffmpeg_run_iteration true .err (fun _ => true)).connected = some 0 := by
  have h := error_session_backoff (fun _ => true)
  exact ⟨h.2.1, h.2.2.1 (by decide), h.2.2.2.2.1⟩

/-- Removing a path makes it no longer exist. -/
theorem pathExists_removeFile_self (fs : Fs) (q : String) :
    (fs.removeFile q).pathExists q = false := by
  simp [Fs.pathExists, Fs.removeFile, List.mem_filter]

/-- Removing a path leaves every other path untouched. -/
theorem pathExists_removeFile_ne (fs : Fs) {p q : String} (h : p ≠ q) :
    (fs.removeFile q).pathExists p = fs.pathExists p := by
  simp [Fs.pathExists, Fs.removeFile, List.mem_filter, h]

/-- Claim C9: `FFmpegMonitor::new` deletes the destination output file
when it already exists (no subprocess is spawned by construction at
all); paths other than the output file are never touched; when the
output file does not exist the filesystem is left unchanged; on a
successful construction the output file no longer exists; and when the
removal of an existing output file fails, construction returns the
removal error and no monitor. -/
theorem ffmpeg_new_filesystem_effect (input output ffmpeg_path : String)
    (fs : Fs) (removeFails : Bool) :
    (∀ p, p ≠ output →
        (FFmpegMonitor.new input output ffmpeg_path fs removeFails).2.pathExists p =
          fs.pathExists p)
  ∧ (∀ mon, (FFmpegMonitor.new input output ffmpeg_path fs removeFails).1 = .ok mon →
        (FFmpegMonitor.new input output ffmpeg_path fs removeFails).2.pathExists output = false)
  ∧ (fs.pathExists output = false →
        (FFmpegMonitor.new input output ffmpeg_path fs removeFails).2 = fs)
  ∧ (∀ st, StreamType.from_input fs.pathExists input = .ok st →
        fs.pathExists output = true → removeFails = true →
        FFmpegMonitor.new input output ffmpeg_path fs removeFails =
          (.error .removeFailed, fs)) := by
  refine ⟨?_, ?_, ?_, ?_⟩
  · intro p hp
    rw [FFmpegMonitor.new]
    cases hcl : StreamType.from_input fs.pathExists input with
    | error e => rfl
    | ok st =>
      try dsimp only
      by_cases hex : fs.pathExists output = true
      · by_cases hrf : removeFails = true
        · rw [if_pos hex, if_pos hrf]
        · rw [if_pos hex, if_neg hrf]
          split <;> exact pathExists_removeFile_ne fs hp
      · rw [if_neg hex]
        split <;> rfl
  · intro mon hok
    rw [FFmpegMonitor.new] at hok ⊢
    cases hcl : StreamType.from_input fs.pathExists input with
    | error e => simp [hcl] at hok
    | ok st =>
      try dsimp only
      simp only [hcl] at hok
      try dsimp only at hok
      by_cases hex : fs.pathExists output = true
      · by_cases hrf : removeFails = true
        · rw [if_pos hex, if_pos hrf] at hok
          exact absurd hok (by simp)
        · rw [if_pos hex, if_neg hrf]
          split <;> exact pathExists_removeFile_self fs output
      · rw [if_neg hex]
        rw [Bool.not_eq_true] at hex
        split <;> exact hex
  · intro hex
    rw [FFmpegMonitor.new]
    cases hcl : StreamType.from_input fs.pathExists input with
    | error e => rfl
    | ok st =>
      try dsimp only
      rw [if_neg (by simp [hex])]
      split <;> rfl
  · intro st hcl hex hrf
    simp only [FFmpegMonitor.new, hcl]
    try dsimp only
    rw [if_pos hex, if_pos hrf]

/-- Claim C9 witness: with an existing output file `out.mp4` and a
failing removal, construction for an SRT input returns the removal
error and leaves the filesystem unchanged; with a successful removal it
deletes exactly that file. -/
theorem ffmpeg_new_filesystem_effect_witness :
    (FFmpegMonitor.new "srt://h:1" "out.mp4" "ffmpeg" ⟨["out.mp4", "other"]⟩ true =
      (.error .removeFailed, ⟨["out.mp4", "other"]⟩)) ∧
    (FFmpegMonitor.new "srt://h:1" "out.mp4" "ffmpeg" ⟨["out.mp4", "other"]⟩
        false).2.pathExists "other" = Fs.pathExists ⟨["out.mp4", "other"]⟩ "other" ∧
    (FFmpegMonitor.new "srt://h:1" "out.mp4" "ffmpeg" ⟨["out.mp4", "other"]⟩
        false).2 ≠ (⟨["out.mp4", "other"]⟩ : Fs) := by
  refine ⟨?_, ?_, by decide⟩
  · exact (ffmpeg_new_filesystem_effect "srt://h:1" "out.mp4" "ffmpeg"
      ⟨["out.mp4", "other"]⟩ true).2.2.2 (.srt "srt://h:1") (by decide)
      (by decide) rfl
  · exact (ffmpeg_new_filesystem_effect "srt://h:1" "out.mp4" "ffmpeg"
      ⟨["out.mp4", "other"]⟩ false).1 "other" (by decide)

/-- In a list whose elements all equal `k`, deduplication yields `[k]`. -/
theorem dedup_eq_singleton_of_all_eq {α : Type} [DecidableEq α] {l : List α}
    {k : α} (hne : l ≠ []) (hall : ∀ x ∈ l, x = k) : l.dedup = [k] := by
  induction l with
  | nil => exact absurd rfl hne
  | cons a t ih =>
    have ha : a = k := hall a (List.mem_cons_self a t)
    subst ha
    cases t with
    | nil => rw [List.dedup_cons_of_not_mem (List.not_mem_nil a), List.dedup_nil]
    | cons b t2 =>
      have hb : b = a := hall b (by simp)
      have ht : (b :: t2) ≠ [] := by simp
      have hall2 : ∀ x ∈ b :: t2, x = a := fun x hx =>
        hall x (List.mem_cons_of_mem a hx)
      rw [List.dedup_cons_of_mem (by rw [hb]; exact List.mem_cons_self a t2)]
      exact ih ht hall2

/-- When every window entry carries the key `k`, its time list is the
whole window's timestamp column. -/
theorem timesFor_all_eq {ft : List (String × ℚ)} {k : String}
    (hall : ∀ p ∈ ft, p.1 = k) : timesFor ft k = ft.map Prod.snd := by
  unfold timesFor
  congr 1
  apply List.filter_eq_self.mpr
  intro p hp
  simpa using hall p hp

/-- When every window entry carries the key `k`, the grouped key list is
just `[k]`. -/
theorem windowKeys_all_eq {ft : List (String × ℚ)} {k : String}
    (hne : ft ≠ []) (hall : ∀ p ∈ ft, p.1 = k) : windowKeys ft = [k] := by
  unfold windowKeys
  apply dedup_eq_singleton_of_all_eq
  · simpa using hne
  · intro x hx
    obtain ⟨p, hp, rfl⟩ := List.mem_map.mp hx
    exact hall p hp

/-- The FPS value written for a single-key window with at least two
samples: the code's `times.len() / (last - first)`. -/
theorem updateFps_single_key (type_str k sid mt : String)
    (ft : List (String × ℚ)) (m : ProbeMetrics)
    (hne : ft ≠ []) (hall : ∀ p ∈ ft, p.1 = k) (hlen : 2 ≤ ft.length)
    (hsplit : split_key k = (sid, mt)) :
    (updateFps type_str ft m).fps type_str sid mt =
      some ((ft.length : ℚ) /
        ((ft.map Prod.snd).getLastD 0 - (ft.map Prod.snd).headD 0)) := by
  unfold updateFps
  rw [windowKeys_all_eq hne hall]
  simp only [List.foldl_cons, List.foldl_nil]
  rw [timesFor_all_eq hall]
  have hlen2 : 2 ≤ (ft.map Prod.snd).length := by simpa using hlen
  rw [if_pos hlen2, hsplit]
  simp [setGauge3]

/-- Windows holding fewer than two samples are skipped by the FPS
recomputation. -/
theorem updateFps_small (type_str : String) (ft : List (String × ℚ))
    (m : ProbeMetrics) (h : ft.length ≤ 1) : updateFps type_str ft m = m := by
  match ft, h with
  | [], _ => rfl
  | [p], _ =>
    unfold updateFps windowKeys timesFor
    simp

/-- When less than one second has elapsed, a frame record never touches
the FPS gauge. -/
theorem process_frame_line_no_fps (type_str : String) (parts : List String)
    (ft : List (String × ℚ)) (m : ProbeMetrics) :
    ((process_frame_line type_str parts false ft m).2.1).fps = m.fps := by
  unfold process_frame_line
  split
  · cases hp : parseDecimal (parts.getD 5 "") <;> simp [hp]
  · rfl

/-- Claim C1 counterexample: feeding frame records with presentation
timestamps 0.0, 0.5 and 1.0 for the one label (stream 0, video), with
the one-second wall-clock condition satisfied on the third record,
sets the FPS gauge to `3 / (1.0 - 0.0) = 3.0` — the code divides the
sample *count* by the window span, not `count − 1`, so the gauge is not
the claimed 2.0. -/
theorem fps_three_timestamps_yield_three :
    ((runFrames "srt"
        [(["frame", "video", "0", "x", "x", "0"], false),
         (["frame", "video", "0", "x", "x", "0.5"], false),
         (["frame", "video", "0", "x", "x", "1"], true)]
        ([], ProbeMetrics.empty)).2).fps "srt" "0" "video" = some 3 ∧
    some (3 : ℚ) ≠ some (2 : ℚ) := by
  constructor
  · norm_num +decide [runFrames, process_frame_line, parseDecimal, parseDigits,
      splitOnceChar, digitVal_zero, digitVal_one, digitVal_five, pushCapped,
      updateFps, windowKeys, timesFor, split_key, setGauge3, incCounter2,
      ProbeMetrics.empty, List.dedup, List.pwFilter]
  · norm_num

/-- The trimmed window never exceeds 100 entries. -/
theorem pushCapped_length_le (ft : List (String × ℚ)) (e : String × ℚ) :
    (pushCapped ft e).length ≤ 100 := by
  simp only [pushCapped, List.length_drop]
  omega

/-- Trimming only evicts from the front: the result is a suffix of the
pushed window. -/
theorem pushCapped_suffix (ft : List (String × ℚ)) (e : String × ℚ) :
    pushCapped ft e <:+ ft ++ [e] := by
  simp only [pushCapped]
  exact List.drop_suffix _ _

/-- One frame record either leaves the window unchanged or replaces it
by a capped push. -/
theorem process_frame_line_window (type_str : String) (parts : List String)
    (elapsed : Bool) (ft : List (String × ℚ)) (m : ProbeMetrics) :
    (process_frame_line type_str parts elapsed ft m).1 = ft ∨
    ∃ e, (process_frame_line type_str parts elapsed ft m).1 = pushCapped ft e := by
  unfold process_frame_line
  split
  · cases hp : parseDecimal (parts.getD 5 "") with
    | none => left; simp [hp]
    | some q =>
      right
      refine ⟨(parts.getD 2 "" ++ "_" ++ parts.getD 1 "", q), ?_⟩
      cases elapsed <;> simp [hp]
  · left; rfl

/-- The window stays within the 100-entry bound along any run. -/
theorem runFrames_length_le (type_str : String)
    (inputs : List (List String × Bool))
    (st : List (String × ℚ) × ProbeMetrics) (h : st.1.length ≤ 100) :
    (runFrames type_str inputs st).1.length ≤ 100 := by
  induction inputs generalizing st with
  | nil => simpa [runFrames]
  | cons a t ih =>
    have hstep : runFrames type_str (a :: t) st = runFrames type_str t
        ((process_frame_line type_str a.1 a.2 st.1 st.2).1,
         (process_frame_line type_str a.1 a.2 st.1 st.2).2.1) := rfl
    rw [hstep]
    apply ih
    rcases process_frame_line_window type_str a.1 a.2 st.1 st.2 with hw | ⟨e, hw⟩
    · simpa [hw]
    · simp only [hw]
      exact pushCapped_length_le st.1 e

/-- Runs compose over concatenated input lists. -/
theorem runFrames_append (type_str : String)
    (l1 l2 : List (List String × Bool))
    (st : List (String × ℚ) × ProbeMetrics) :
    runFrames type_str (l1 ++ l2) st =
      runFrames type_str l2 (runFrames type_str l1 st) := by
  simp [runFrames, List.foldl_append]

/-- Effect of one video frame record (stream 0, pts 0) on a window with
room left: the entry is appended and nothing is evicted. -/
theorem frame_step_video (ft : List (String × ℚ)) (mm : ProbeMetrics)
    (h : ft.length ≤ 99) :
    (process_frame_line "srt" ["frame", "video", "0", "x", "x", "0"] false ft mm).1 =
      ft ++ [("0_video", (0 : ℚ))] := by
  have hp : parseDecimal ((["frame", "video", "0", "x", "x", "0"] : List String).getD 5 "") =
      some 0 := by
    norm_num +decide [parseDecimal, parseDigits, splitOnceChar, digitVal_zero]
  unfold process_frame_line
  rw [if_pos (by norm_num :
      (6 : ℕ) ≤ (["frame", "video", "0", "x", "x", "0"] : List String).length), hp]
  dsimp only
  rw [show ((["frame", "video", "0", "x", "x", "0"] : List String).getD 2 "" ++ "_" ++
      (["frame", "video", "0", "x", "x", "0"] : List String).getD 1 "") = "0_video" from rfl]
  simp only [pushCapped, List.length_append, List.length_cons, List.length_nil]
  rw [show ft.length + (0 + 1) - 100 = 0 by omega, List.drop_zero]
  simp

/-- Effect of one audio frame record (stream 1, pts 0) on a window
already holding 100 video entries: the oldest video entry is evicted to
make room. -/
theorem frame_step_audio (mm : ProbeMetrics) :
    (process_frame_line "srt" ["frame", "audio", "1", "x", "x", "0"] false
        (List.replicate 100 ("0_video", (0 : ℚ))) mm).1 =
      List.replicate 99 ("0_video", (0 : ℚ)) ++ [("1_audio", (0 : ℚ))] := by
  have hp : parseDecimal ((["frame", "audio", "1", "x", "x", "0"] : List String).getD 5 "") =
      some 0 := by
    norm_num +decide [parseDecimal, parseDigits, splitOnceChar, digitVal_zero]
  unfold process_frame_line
  rw [if_pos (by norm_num :
      (6 : ℕ) ≤ (["frame", "audio", "1", "x", "x", "0"] : List String).length), hp]
  dsimp only
  rw [show ((["frame", "audio", "1", "x", "x", "0"] : List String).getD 2 "" ++ "_" ++
      (["frame", "audio", "1", "x", "x", "0"] : List String).getD 1 "") = "1_audio" from rfl]
  simp only [pushCapped, List.length_append, List.length_replicate, List.length_cons,
    List.length_nil]
  rw [show (100 : ℕ) + (0 + 1) - 100 = 1 by omega]
  rw [show (100 : ℕ) = 99 + 1 from rfl, List.replicate_succ]
  simp

/-- Running `n` identical video frame records (pts 0) from a window of
`k` identical entries fills the window to `k + n` entries, as long as
the cap is not reached. -/
theorem runFrames_video_replicate (n : Nat) :
    ∀ (k : Nat) (m : ProbeMetrics), k + n ≤ 100 →
    (runFrames "srt"
        (List.replicate n (["frame", "video", "0", "x", "x", "0"], false))
        (List.replicate k ("0_video", (0 : ℚ)), m)).1 =
      List.replicate (k + n) ("0_video", (0 : ℚ)) := by
  induction n with
  | zero => intro k m h; simp [runFrames]
  | succ n ih =>
    intro k m h
    rw [List.replicate_succ]
    have hstep : runFrames "srt"
        ((["frame", "video", "0", "x", "x", "0"], false) ::
          List.replicate n (["frame", "video", "0", "x", "x", "0"], false))
        (List.replicate k ("0_video", (0 : ℚ)), m) =
      runFrames "srt" (List.replicate n (["frame", "video", "0", "x", "x", "0"], false))
        ((process_frame_line "srt" ["frame", "video", "0", "x", "x", "0"] false
            (List.replicate k ("0_video", (0 : ℚ))) m).1,
         (process_frame_line "srt" ["frame", "video", "0", "x", "x", "0"] false
            (List.replicate k ("0_video", (0 : ℚ))) m).2.1) := rfl
    rw [hstep, frame_step_video _ _ (by simp; omega), ← List.replicate_succ']
    rw [ih (k + 1) _ (by omega)]
    congr 1
    omega

/-- Length of the video-keyed part of a replicated window. -/
theorem filter_key_replicate (n : Nat) :
    ((List.replicate n (("0_video" : String), (0 : ℚ))).filter
        (fun p => p.1 == "0_video")).length = n := by
  induction n with
  | zero => rfl
  | succ n ih =>
    rw [List.replicate_succ]
    simp [List.filter_cons, ih]

/-- Claim C8 counterexample: after 100 video-frame insertions the window
holds 100 entries for the (0, video) label; one further insertion under
the *different* label (1, audio) evicts the oldest (0, video) entry,
leaving only 99 — so insertions under one label do evict another
label's samples, and the 100-entry cap is global, not per label. -/
theorem cross_label_eviction :
    (runFrames "srt"
        (List.replicate 100 (["frame", "video", "0", "x", "x", "0"], false))
        ([], ProbeMetrics.empty)).1 = List.replicate 100 ("0_video", (0 : ℚ))
  ∧ ((runFrames "srt"
        (List.replicate 100 (["frame", "video", "0", "x", "x", "0"], false))
        ([], ProbeMetrics.empty)).1.filter (fun p => p.1 == "0_video")).length = 100
  ∧ (runFrames "srt"
        (List.replicate 100 (["frame", "video", "0", "x", "x", "0"], false) ++
          [(["frame", "audio", "1", "x", "x", "0"], false)])
        ([], ProbeMetrics.empty)).1 =
      List.replicate 99 ("0_video", (0 : ℚ)) ++ [("1_audio", (0 : ℚ))]
  ∧ ((runFrames "srt"
        (List.replicate 100 (["frame", "video", "0", "x", "x", "0"], false) ++
          [(["frame", "audio", "1", "x", "x", "0"], false)])
        ([], ProbeMetrics.empty)).1.filter (fun p => p.1 == "0_video")).length = 99 := by
  have h1 : (runFrames "srt"
      (List.replicate 100 (["frame", "video", "0", "x", "x", "0"], false))
      ([], ProbeMetrics.empty)).1 = List.replicate 100 ("0_video", (0 : ℚ)) := by
    have := runFrames_video_replicate 100 0 ProbeMetrics.empty (by omega)
    simpa using this
  have h3 : (runFrames "srt"
      (List.replicate 100 (["frame", "video", "0", "x", "x", "0"], false) ++
        [(["frame", "audio", "1", "x", "x", "0"], false)])
      ([], ProbeMetrics.empty)).1 =
      List.replicate 99 ("0_video", (0 : ℚ)) ++ [("1_audio", (0 : ℚ))] := by
    rw [runFrames_append]
    have hsingle : ∀ st : List (String × ℚ) × ProbeMetrics,
        (runFrames "srt" [(["frame", "audio", "1", "x", "x", "0"], false)] st).1 =
        (process_frame_line "srt" ["frame", "audio", "1", "x", "x", "0"] false
          st.1 st.2).1 := fun _ => rfl
    rw [hsingle, h1, frame_step_audio]
  refine ⟨h1, ?_, h3, ?_⟩
  · rw [h1]
    exact filter_key_replicate 100
  · rw [h3, List.filter_append]
    simp [filter_key_replicate]

/-- Claim C8 (amended): the frame-time window is capped at 100 entries
*in total* across all labels — hence also at most 100 per label — and
eviction under push pressure is FIFO, dropping only the oldest (front)
entries: the trimmed window is always a suffix of the old window with
the new entry appended.  The window is global, not per label, so the
cap is shared between labels. -/
theorem frame_window_global_cap :
    (∀ type_str (inputs : List (List String × Bool)) m,
        ((runFrames type_str inputs ([], m)).1).length ≤ 100)
  ∧ (∀ type_str (inputs : List (List String × Bool)) m (k : String),
        (((runFrames type_str inputs ([], m)).1).filter
            (fun p => p.1 == k)).length ≤ 100)
  ∧ (∀ (ft : List (String × ℚ)) e, pushCapped ft e <:+ ft ++ [e]) := by
  refine ⟨?_, ?_, pushCapped_suffix⟩
  · intro t i m
    exact runFrames_length_le t i ([], m) (by simp)
  · intro t i m k
    exact le_trans (List.length_filter_le _ _)
      (runFrames_length_le t i ([], m) (by simp))

/-- `updateFps` only writes the `fps` family, and does so as a fold of
per-key gauge updates over the window's keys. -/
theorem updateFps_fps (t : String) (ft : List (String × ℚ)) (m : ProbeMetrics) :
    (updateFps t ft m).fps = (windowKeys ft).foldl (fpsKeyUpdate t ft) m.fps := by
  rw [updateFps]
  generalize windowKeys ft = ks
  induction ks generalizing m with
  | nil => rfl
  | cons k ks ih =>
    rw [List.foldl_cons, List.foldl_cons, ih]
    congr 1
    by_cases h2 : 2 ≤ (timesFor ft k).length <;>
      simp [fpsKeyUpdate, h2]

/-- Label triples claimed by no qualifying key are left untouched by the
per-key fold. -/
theorem foldl_fpsKeyUpdate_untouched (t : String) (ft : List (String × ℚ)) :
    ∀ (ks : List String) (g : String → String → String → Option ℚ) (a b c : String),
    (∀ k ∈ ks, 2 ≤ (timesFor ft k).length →
      ¬(a = t ∧ b = (split_key k).1 ∧ c = (split_key k).2)) →
    ks.foldl (fpsKeyUpdate t ft) g a b c = g a b c := by
  intro ks
  induction ks with
  | nil => intro g a b c _; rfl
  | cons k ks ih =>
    intro g a b c h
    rw [List.foldl_cons]
    rw [ih _ a b c (fun k1 hk1 => h k1 (List.mem_cons_of_mem k hk1))]
    by_cases h2 : 2 ≤ (timesFor ft k).length
    · simp only [fpsKeyUpdate, if_pos h2, setGauge3]
      rw [if_neg (h k (List.mem_cons_self k ks) h2)]
    · simp only [fpsKeyUpdate, if_neg h2]

/-- A key with at least two samples, whose split labels no other key of
the (duplicate-free) key list shares, gets exactly its own quotient
written at its own split labels by the per-key fold. -/
theorem foldl_fpsKeyUpdate_write (t : String) (ft : List (String × ℚ)) :
    ∀ (ks : List String) (g : String → String → String → Option ℚ) (k : String),
    ks.Nodup → k ∈ ks → 2 ≤ (timesFor ft k).length →
    (∀ k1 ∈ ks, split_key k1 = split_key k → k1 = k) →
    ks.foldl (fpsKeyUpdate t ft) g t (split_key k).1 (split_key k).2 =
      some (((timesFor ft k).length : ℚ) /
        ((timesFor ft k).getLastD 0 - (timesFor ft k).headD 0)) := by
  intro ks
  induction ks with
  | nil => intro g k _ hk; exact absurd hk (List.not_mem_nil k)
  | cons a ks ih =>
    intro g k hnd hk h2 hdist
    have hnd2 := List.nodup_cons.mp hnd
    rw [List.foldl_cons]
    rcases List.mem_cons.mp hk with rfl | hk2
    · rw [foldl_fpsKeyUpdate_untouched t ft ks _ t (split_key k).1 (split_key k).2 ?later]
      · simp [fpsKeyUpdate, if_pos h2, setGauge3]
      case later =>
        intro k1 hk1 hl2 hc
        have heq : split_key k1 = split_key k :=
          Prod.ext hc.2.1.symm hc.2.2.symm
        have hkk : k1 = k := hdist k1 (List.mem_cons_of_mem k hk1) heq
        exact absurd (hkk ▸ hk1) hnd2.1
    · exact ih _ k hnd2.2 hk2 h2
        (fun k1 hk1 he => hdist k1 (List.mem_cons_of_mem a hk1) he)

/-- A successful `split_once` decomposes its input around the first
occurrence of the separator. -/
theorem splitOnceChar_eq_some {c : Char} :
    ∀ {cs a b : List Char}, splitOnceChar c cs = some (a, b) → cs = a ++ c :: b := by
  intro cs
  induction cs with
  | nil => intro a b h; exact absurd h (by simp [splitOnceChar])
  | cons x rest ih =>
    intro a b h
    rw [splitOnceChar] at h
    by_cases hx : x = c
    · rw [if_pos hx] at h
      obtain ⟨rfl, rfl⟩ := Prod.mk.injEq .. ▸ (Option.some.inj h)
      simp [hx]
    · rw [if_neg hx] at h
      cases hr : splitOnceChar c rest with
      | none => rw [hr] at h; exact absurd h (by simp)
      | some p =>
        rw [hr] at h
        obtain ⟨a1, b1⟩ := p
        simp only [Option.map_some'] at h
        obtain ⟨rfl, rfl⟩ := Prod.mk.injEq .. ▸ (Option.some.inj h)
        simpa using ih hr

/-- `split_once` succeeds whenever the separator occurs. -/
theorem splitOnceChar_isSome_of_mem {c : Char} :
    ∀ {cs : List Char}, c ∈ cs → (splitOnceChar c cs).isSome = true := by
  intro cs
  induction cs with
  | nil => intro h; exact absurd h (List.not_mem_nil c)
  | cons x rest ih =>
    intro h
    rw [splitOnceChar]
    by_cases hx : x = c
    · rw [if_pos hx]; rfl
    · rw [if_neg hx]
      have hc : c ∈ rest := by
        rcases List.mem_cons.mp h with h1 | h1
        · exact absurd h1.symm hx
        · exact h1
      cases hr : splitOnceChar c rest with
      | none => rw [hr] at ih; exact absurd (ih hc) (by simp)
      | some p => simp [hr]

/-- A key containing the separator is rebuilt from its split labels. -/
theorem split_key_join {k : String} (h : '_' ∈ k.toList) :
    k.toList = (split_key k).1.toList ++ '_' :: (split_key k).2.toList := by
  unfold split_key
  cases hs : splitOnceChar '_' k.toList with
  | none =>
    have hi := splitOnceChar_isSome_of_mem h
    rw [hs] at hi
    exact absurd hi (by simp)
  | some p =>
    obtain ⟨a, b⟩ := p
    simpa using splitOnceChar_eq_some hs

/-- On keys of the joined `streamID_mediaType` form — the only form the
extractor ever pushes — `split_key` is injective: distinct keys never
share split labels. -/
theorem split_key_inj {k1 k2 : String} (h1 : '_' ∈ k1.toList)
    (h2 : '_' ∈ k2.toList) (he : split_key k1 = split_key k2) : k1 = k2 := by
  have e1 := split_key_join h1
  have e2 := split_key_join h2
  rw [he] at e1
  have he2 : k1.toList = k2.toList := by rw [e1, e2]
  exact String.ext (by simpa [String.toList] using he2)

/-- Frame records only ever push keys of the joined
`streamID_mediaType` form (monitor.rs 348), so the separator invariant
on window keys is preserved. -/
theorem process_frame_line_keys (t : String) (parts : List String) (e : Bool)
    (ft : List (String × ℚ)) (m : ProbeMetrics)
    (hft : ∀ p ∈ ft, '_' ∈ p.1.toList) :
    ∀ p ∈ (process_frame_line t parts e ft m).1, '_' ∈ p.1.toList := by
  intro p hp
  unfold process_frame_line at hp
  by_cases h6 : 6 ≤ parts.length
  · rw [if_pos h6] at hp
    cases hparse : parseDecimal (parts.getD 5 "") with
    | none =>
      rw [hparse] at hp
      exact hft p hp
    | some q =>
      rw [hparse] at hp
      have hp2 : p ∈ pushCapped ft (parts.getD 2 "" ++ "_" ++ parts.getD 1 "", q) := by
        cases e <;> simpa using hp
      have hsub := (pushCapped_suffix ft _).subset hp2
      rcases List.mem_append.mp hsub with h1 | h1
      · exact hft p h1
      · have hpe : p = (parts.getD 2 "" ++ "_" ++ parts.getD 1 "", q) := by
          simpa using h1
        rw [hpe]
        show '_' ∈ (parts.getD 2 "" ++ "_" ++ parts.getD 1 "").toList
        simp [String.toList, String.data_append]
  · rw [if_neg h6] at hp
    exact hft p hp

/-- Along any run, every key of the window contains the separator. -/
theorem runFrames_keys_underscore (t : String) :
    ∀ (inputs : List (List String × Bool))
      (st : List (String × ℚ) × ProbeMetrics),
    (∀ p ∈ st.1, '_' ∈ p.1.toList) →
    ∀ k ∈ windowKeys (runFrames t inputs st).1, '_' ∈ k.toList := by
  intro inputs
  induction inputs with
  | nil =>
    intro st hst k hk
    have hk2 : k ∈ st.1.map Prod.fst := List.mem_dedup.mp hk
    obtain ⟨p, hp, rfl⟩ := List.mem_map.mp hk2
    exact hst p hp
  | cons a rest ih =>
    intro st hst
    have hstep : runFrames t (a :: rest) st = runFrames t rest
        ((process_frame_line t a.1 a.2 st.1 st.2).1,
         (process_frame_line t a.1 a.2 st.1 st.2).2.1) := rfl
    rw [hstep]
    exact ih _ (process_frame_line_keys t a.1 a.2 st.1 st.2 hst)

/-- Claim C1 (amended): on a frame record with the one-second wall-clock
condition met, the extractor recomputes FPS over the (global,
multi-key) window: every window key with at least 2 timestamp samples
gets the FPS gauge for *its own* split (stream-id, media-type) labels
set to `sample_count / (newest − oldest)` — not `sample_count − 1`
(keys never share split labels, since every key the extractor pushes
has the joined `streamID_mediaType` form, an invariant proven for all
reachable windows); label triples claimed by no key with ≥2 samples are
left untouched, so keys with fewer than 2 samples are skipped; when
less than one second has elapsed the FPS gauge is untouched; and the
0.0/0.5/1.0 example yields an FPS gauge value of 3.0. -/
theorem fps_estimator_spec :
    (∀ type_str (ft : List (String × ℚ)) m k,
        k ∈ windowKeys ft →
        (∀ k1 ∈ windowKeys ft, '_' ∈ k1.toList) →
        2 ≤ (timesFor ft k).length →
        (updateFps type_str ft m).fps type_str (split_key k).1 (split_key k).2 =
          some (((timesFor ft k).length : ℚ) /
            ((timesFor ft k).getLastD 0 - (timesFor ft k).headD 0)))
  ∧ (∀ type_str (ft : List (String × ℚ)) m a b c,
        (∀ k ∈ windowKeys ft, 2 ≤ (timesFor ft k).length →
          ¬(a = type_str ∧ b = (split_key k).1 ∧ c = (split_key k).2)) →
        (updateFps type_str ft m).fps a b c = m.fps a b c)
  ∧ (∀ t (inputs : List (List String × Bool)) m,
        ∀ k ∈ windowKeys (runFrames t inputs ([], m)).1, '_' ∈ k.toList)
  ∧ (∀ type_str parts (ft : List (String × ℚ)) m,
        ((process_frame_line type_str parts false ft m).2.1).fps = m.fps)
  ∧ ((runFrames "srt"
        [(["frame", "video", "0", "x", "x", "0"], false),
         (["frame", "video", "0", "x", "x", "0.5"], false),
         (["frame", "video", "0", "x", "x", "1"], true)]
        ([], ProbeMetrics.empty)).2).fps "srt" "0" "video" = some 3 := by
  refine ⟨?_, ?_, ?_, process_frame_line_no_fps, ?_⟩
  · intro type_str ft m k hk hund h2
    rw [updateFps_fps]
    exact foldl_fpsKeyUpdate_write type_str ft (windowKeys ft) m.fps k
      (List.nodup_dedup _) hk h2
      (fun k1 hk1 he => split_key_inj (hund k1 hk1) (hund k hk) he)
  · intro type_str ft m a b c h
    rw [updateFps_fps]
    exact foldl_fpsKeyUpdate_untouched type_str ft (windowKeys ft) m.fps a b c h
  · intro t inputs m
    exact runFrames_keys_underscore t inputs ([], m) (by simp)
  · norm_num +decide [runFrames, process_frame_line, parseDecimal, parseDigits,
      splitOnceChar, digitVal_zero, digitVal_one, digitVal_five, pushCapped,
      updateFps, windowKeys, timesFor, split_key, setGauge3, incCounter2,
      ProbeMetrics.empty, List.dedup, List.pwFilter]

/-- Claim C1 witness: a genuinely multi-key window — two video samples
0, 1 interleaved with three audio samples 0, 2, 3 under a different
label — gets each key its own value: `2 / (1 - 0) = 2` for (0, video)
and `3 / (3 - 0) = 1` for (1, audio), while the unclaimed label
combination (0, audio) stays unset. -/
theorem fps_estimator_spec_witness :
    (updateFps "srt"
        [("0_video", (0 : ℚ)), ("1_audio", 0), ("0_video", 1),
         ("1_audio", 2), ("1_audio", 3)]
        ProbeMetrics.empty).fps "srt" "0" "video" = some 2 ∧
    (updateFps "srt"
        [("0_video", (0 : ℚ)), ("1_audio", 0), ("0_video", 1),
         ("1_audio", 2), ("1_audio", 3)]
        ProbeMetrics.empty).fps "srt" "1" "audio" = some 1 ∧
    (updateFps "srt"
        [("0_video", (0 : ℚ)), ("1_audio", 0), ("0_video", 1),
         ("1_audio", 2), ("1_audio", 3)]
        ProbeMetrics.empty).fps "srt" "0" "audio" = none := by
  refine ⟨?_, ?_, ?_⟩
  · have h1 := fps_estimator_spec.1 "srt"
      [("0_video", (0 : ℚ)), ("1_audio", 0), ("0_video", 1),
       ("1_audio", 2), ("1_audio", 3)]
      ProbeMetrics.empty "0_video" (by decide) (by decide) (by decide)
    rw [show split_key "0_video" = ("0", "video") from by decide,
      show timesFor
        [("0_video", (0 : ℚ)), ("1_audio", 0), ("0_video", 1),
         ("1_audio", 2), ("1_audio", 3)] "0_video" = [(0 : ℚ), 1] from by decide] at h1
    norm_num at h1
    exact h1
  · have h1 := fps_estimator_spec.1 "srt"
      [("0_video", (0 : ℚ)), ("1_audio", 0), ("0_video", 1),
       ("1_audio", 2), ("1_audio", 3)]
      ProbeMetrics.empty "1_audio" (by decide) (by decide) (by decide)
    rw [show split_key "1_audio" = ("1", "audio") from by decide,
      show timesFor
        [("0_video", (0 : ℚ)), ("1_audio", 0), ("0_video", 1),
         ("1_audio", 2), ("1_audio", 3)] "1_audio" = [(0 : ℚ), 2, 3] from by decide] at h1
    norm_num at h1
    exact h1
  · have h1 := fps_estimator_spec.2.1 "srt"
      [("0_video", (0 : ℚ)), ("1_audio", 0), ("0_video", 1),
       ("1_audio", 2), ("1_audio", 3)]
      ProbeMetrics.empty "srt" "0" "audio" (by decide)
    rw [h1]
    rfl

end FfmpegExporter
